import Mathlib

/-!
Verification development for the cloud-event exporter
(src/cloudeventexporter/exporter.go).

The Go code is shallowly embedded: the pdata log structures become nested
lists, pcommon values become a small inductive covering the value kinds the
code uses, and the stateful pieces (the reused `ce` stack variable, the
package-level `typeVersion` / `filters` / `filterAllowAll` globals) are made
explicit.  Machine strings are Lean strings at rune (Char) granularity.
-/

namespace CloudeventExporter

/-- The attribute names of exporter.go (const block, lines 45-50). -/
def ATTR_EVENT_COUNT : String := "k8s.event.count"

/-- k8s.event.name attribute key. -/
def ATTR_EVENT_NAME : String := "k8s.event.name"

/-- k8s.namespace.name attribute key. -/
def ATTR_EVENT_NS : String := "k8s.namespace.name"

/-- k8s.event.reason attribute key. -/
def ATTR_EVENT_REASON : String := "k8s.event.reason"

/-- k8s.event.start_time attribute key. -/
def ATTR_EVENT_START_TIME : String := "k8s.event.start_time"

/-- k8s.event.uid attribute key. -/
def ATTR_EVENT_UID : String := "k8s.event.uid"

/-- `CHAN_SZ = 2`: channel capacity and worker count (exporter.go line 54). -/
def CHAN_SZ : Nat := 2

/-- `FETCH_ATTR = true` (exporter.go line 57). -/
def FETCH_ATTR : Bool := true

/-- `RETRY_ENABLED = false` (exporter.go line 60). -/
def RETRY_ENABLED : Bool := false

/-- A pcommon.Value restricted to the kinds the exporter reads: string and
int attribute values (and log bodies).  `asString` mirrors
`Value.AsString` and `intVal` mirrors `Value.Int`, which yields 0 when the
value is not of int type. -/
inductive PVal where
  | ofStr (s : String)
  | ofInt (n : Int)
deriving DecidableEq, Repr

/-- `Value.AsString()`. -/
def PVal.asString : PVal → String
  | .ofStr s => s
  | .ofInt n => toString n

/-- `Value.Int()`: the int payload, or 0 for a non-int value. -/
def PVal.intVal : PVal → Int
  | .ofStr _ => 0
  | .ofInt n => n

/-- A pcommon.Map lookup, `Map.Get(key)`: the value and an ok flag, here an
`Option`. -/
def attrGet (attrs : List (String × PVal)) (key : String) : Option PVal :=
  (attrs.find? (fun p => p.1 == key)).map (fun p => p.2)

/-- One plog.LogRecord: its attribute map and its body value. -/
structure LogRecord where
  attrs : List (String × PVal)
  body : PVal
deriving DecidableEq, Repr

/-- One plog.ScopeLogs group. -/
structure ScopeLogs where
  logRecords : List LogRecord
deriving DecidableEq, Repr

/-- One plog.ResourceLogs group. -/
structure ResourceLogs where
  scopeLogs : List ScopeLogs
deriving DecidableEq, Repr

/-- A plog.Logs batch: the list of resource-scoped groups. -/
abbrev Logs := List ResourceLogs

/-- The `cloudeventdata` struct (exporter.go lines 74-82); the Go field
`namespace` is a Lean keyword and is rendered `namespc`. -/
structure cloudeventdata where
  count : Int
  message : String
  name : String
  namespc : String
  reason : String
  startTime : String
  uid : String
deriving DecidableEq, Repr

/-- The `RemoveIf` predicate of the filter pass (exporter.go lines 157-171):
`true` means the record is removed.  A record with no reason attribute gets
`false` (kept); otherwise it is removed exactly when its reason string
matches none of the configured filters. -/
def removeRecordPred (filters : List String) (lr : LogRecord) : Bool :=
  match attrGet lr.attrs ATTR_EVENT_REASON with
  | none => false
  | some reason => !(filters.any (fun r => r == reason.asString))

/-- The filter pass of pushLogs (exporter.go lines 154-177): when
`filterAllowAll` is false, drop records per `removeRecordPred`, then drop
scope groups whose record list became empty, then resource groups whose
scope list became empty.  When `filterAllowAll` is true the batch is left
untouched. -/
def applyReasonFilter (filterAllowAll : Bool) (filters : List String)
    (ld : Logs) : Logs :=
  if filterAllowAll then ld
  else
    ((ld.map (fun rl =>
        ResourceLogs.mk
          (((rl.scopeLogs.map (fun sl =>
              ScopeLogs.mk
                (sl.logRecords.filter
                  (fun lr => !(removeRecordPred filters lr))))).filter
            (fun sl => !(sl.logRecords.length == 0)))))).filter
      (fun rl => !(rl.scopeLogs.length == 0)))

/-- The attribute-presence check of pushLogs (exporter.go line 204):
`!(reasonOk && startTimeOk && eventNameOk && eventUidOk && eventNsOk &&
eventCountOk)`. -/
def anyAttrError (lr : LogRecord) : Bool :=
  !((attrGet lr.attrs ATTR_EVENT_REASON).isSome &&
    (attrGet lr.attrs ATTR_EVENT_START_TIME).isSome &&
    (attrGet lr.attrs ATTR_EVENT_NAME).isSome &&
    (attrGet lr.attrs ATTR_EVENT_UID).isSome &&
    (attrGet lr.attrs ATTR_EVENT_NS).isSome &&
    (attrGet lr.attrs ATTR_EVENT_COUNT).isSome)

/-- The `overAllErrStr` accumulation of pushLogs (exporter.go lines 207-231):
for each absent attribute, in the order reason, start_time, name, uid,
namespace, count, append `"\x7b" + name + "\x7d "`. -/
def overAllErrStr (lr : LogRecord) : String :=
  (if (attrGet lr.attrs ATTR_EVENT_REASON).isSome then ""
   else "\x7b" ++ ATTR_EVENT_REASON ++ "\x7d ") ++
  (if (attrGet lr.attrs ATTR_EVENT_START_TIME).isSome then ""
   else "\x7b" ++ ATTR_EVENT_START_TIME ++ "\x7d ") ++
  (if (attrGet lr.attrs ATTR_EVENT_NAME).isSome then ""
   else "\x7b" ++ ATTR_EVENT_NAME ++ "\x7d ") ++
  (if (attrGet lr.attrs ATTR_EVENT_UID).isSome then ""
   else "\x7b" ++ ATTR_EVENT_UID ++ "\x7d ") ++
  (if (attrGet lr.attrs ATTR_EVENT_NS).isSome then ""
   else "\x7b" ++ ATTR_EVENT_NS ++ "\x7d ") ++
  (if (attrGet lr.attrs ATTR_EVENT_COUNT).isSome then ""
   else "\x7b" ++ ATTR_EVENT_COUNT ++ "\x7d ")

/-- Field extraction for one record (exporter.go lines 192-257, `FETCH_ATTR`
branch): on any missing attribute fail with the aggregated message built from
`overAllErrStr`; otherwise build the `cloudeventdata` value (`int(Int())` is
the identity on 64-bit, and the message is `Body().AsString()`).  When
`FETCH_ATTR` is false the code instead builds a fixed test record. -/
def extractRecord (lr : LogRecord) : Except String cloudeventdata :=
  if FETCH_ATTR then
    match attrGet lr.attrs ATTR_EVENT_COUNT, attrGet lr.attrs ATTR_EVENT_NAME,
          attrGet lr.attrs ATTR_EVENT_NS, attrGet lr.attrs ATTR_EVENT_UID,
          attrGet lr.attrs ATTR_EVENT_REASON,
          attrGet lr.attrs ATTR_EVENT_START_TIME with
    | some eventCount, some eventName, some eventNs, some eventUid,
      some reason, some startTime =>
        .ok { count := eventCount.intVal
              message := lr.body.asString
              name := eventName.asString
              namespc := eventNs.asString
              reason := reason.asString
              startTime := startTime.asString
              uid := eventUid.asString }
    | _, _, _, _, _, _ =>
        .error ("Couldn\x27t find " ++ overAllErrStr lr ++ "attributes in the log")
  else
    .ok { count := 0, message := lr.body.asString, name := "name",
          namespc := "ns", reason := "TestReason", startTime := "",
          uid := "fhapohnea-afj-ajfa" }

/-- The conversion loop of pushLogs over the (already filtered) records in
iteration order: on the first record whose extraction fails the whole call
returns that error; otherwise the list of `cloudeventdata` values sent to the
channel, in order. -/
def convertRecords : List LogRecord → Except String (List cloudeventdata)
  | [] => .ok []
  | lr :: rest =>
      match extractRecord lr with
      | .error e => .error e
      | .ok ce =>
          match convertRecords rest with
          | .error e => .error e
          | .ok ces => .ok (ce :: ces)

/-- The records of a batch in the iteration order of the three nested loops of
pushLogs (exporter.go lines 180-263): resources, then scopes, then records. -/
def flattenLogs (ld : Logs) : List LogRecord :=
  (ld.map (fun rl => (rl.scopeLogs.map (fun sl => sl.logRecords)).flatten)).flatten

/-- pushLogs (exporter.go lines 148-266): run the filter pass, then convert the
surviving records in order; the result is the error returned, or the sequence
of `cloudeventdata` values the loop sent to `ceChan`.  (In the Go code every
send transmits `&ce`, the address of the one stack variable that is
overwritten on each iteration; the values listed here are the snapshots `ce`
holds at each send.) -/
def pushLogs (filterAllowAll : Bool) (filters : List String) (ld : Logs) :
    Except String (List cloudeventdata) :=
  convertRecords (flattenLogs (applyReasonFilter filterAllowAll filters ld))

/-- Because pushLogs sends the address of the single reused variable `ce` for
every record (exporter.go lines 151, 236, 260), all queue entries alias one
cell; after the producer loop that cell holds the last value written, i.e. the
last element of the send sequence.  A worker that dereferences its entry after
the producer has moved on reads this value, whatever entry it received. -/
def ceCellAfter (sent : List cloudeventdata) : Option cloudeventdata :=
  sent.getLast?

/-- `strings.ReplaceAll(ce.message, "\"", "\\\"")` (exporter.go line 271):
since the pattern is the single rune `"`, this rewrites each quote to
backslash-quote. -/
def escapeQuotes (s : String) : String :=
  String.mk (s.data.foldr
    (fun c acc => if c = '"' then '\\' :: '"' :: acc else c :: acc) [])

/-- The JSON body built by exportMessage (exporter.go lines 271-281):
`fmt.Sprintf(CE_DATA_META_BODY, reason, startTime, name, namespace, count,
msg)` with `CE_DATA_META_BODY` the skeleton of line 31 and `msg` the
quote-escaped message. -/
def exportBody (ce : cloudeventdata) : String :=
  "\x7b\"reason\":\"" ++ ce.reason ++
  "\",\"start_time\":\"" ++ ce.startTime ++
  "\",\"name\":\"" ++ ce.name ++
  "\",\"namespace\":\"" ++ ce.namespc ++
  "\",\"count\":" ++ toString ce.count ++
  ",\"message\":\"" ++ escapeQuotes ce.message ++ "\"\x7d"

/-- Go `unicode.IsSpace`: the Unicode White_Space property (the code points
of Go's table: Latin-1 spaces plus the White_Space ranges). -/
def goIsSpace (c : Char) : Bool :=
  c.toNat ∈ [0x09, 0x0A, 0x0B, 0x0C, 0x0D, 0x20, 0x85, 0xA0, 0x1680,
    0x2000, 0x2001, 0x2002, 0x2003, 0x2004, 0x2005, 0x2006, 0x2007, 0x2008,
    0x2009, 0x200A, 0x2028, 0x2029, 0x202F, 0x205F, 0x3000]

/-- The package-level `typeVersion` after newExporter ran (exporter.go lines
93-95): `"v" + string(conf.Ce.SpecVersion[0])` when the spec-version string
is non-empty, otherwise the global keeps its zero value `""`. -/
def typeVersionOf (specversion : String) : String :=
  match specversion.data with
  | [] => ""
  | c :: _ => "v" ++ String.mk [c]

/-- configureCeType (exporter.go lines 335-351): pretext, a dot, the
`typeVersion` global, a dot, then the reason with every rune satisfying
`unicode.IsSpace` skipped. -/
def configureCeType (typeVersion : String) (pretext : String)
    (reason : String) : String :=
  pretext ++ "." ++ typeVersion ++ "." ++
    String.mk (reason.data.filter (fun ch => !(goIsSpace ch)))

/-- A decimal digit sequence for Atoi: `none` when empty or containing a
non-digit, otherwise its value. -/
def atoiDigits : List Char → Option Nat
  | [] => none
  | l =>
    if l.all (fun c => c.isDigit) then
      some (l.foldl (fun acc c => 10 * acc + (c.toNat - 48)) 0)
    else none

/-- Go `strconv.Atoi`: optional sign, then decimal digits; errors (here
`none`) on an empty string, a stray character, or a value outside the 64-bit
int range. -/
def goAtoi (s : String) : Option Int :=
  let signed : Option Int :=
    match s.data with
    | '+' :: rest => (atoiDigits rest).map (fun n => (n : Int))
    | '-' :: rest => (atoiDigits rest).map (fun n => -(n : Int))
    | l => (atoiDigits l).map (fun n => (n : Int))
  signed.bind (fun v =>
    if -(2 ^ 63) ≤ v ∧ v < 2 ^ 63 then some v else none)

/-- An HTTP response as the worker sees it: the status code and the value of
`res.Header.Get("Retry-After")`, which is `""` when the header is absent. -/
structure HttpResponse where
  statusCode : Int
  retryAfterHeader : String
deriving DecidableEq, Repr

/-- What the worker does after `client.Do` returned a response, per event:
nothing on success, one plain error log, or one throttle-retry error log
carrying a suggested delay in seconds. -/
inductive ResponseOutcome where
  | success
  | logError (msg : String)
  | logThrottle (msg : String) (delaySeconds : Int)
deriving DecidableEq, Repr

/-- The `formattedErr` message of exportMessage (exporter.go lines 310-311). -/
def formattedErrMsg (endpoint : String) (status : Int) : String :=
  "error exporting items, request to " ++ endpoint ++
    " responded with HTTP Status Code " ++ toString status

/-- The response handling of exportMessage (exporter.go lines 306-331):
2xx means continue silently; otherwise build `formattedErr`; with
`RETRY_ENABLED` compute `retryAfter` (only for status 429 or 503 with a
non-empty parseable Retry-After header) and log the throttle-retry error;
without it log `formattedErr`.  Every branch ends in `continue`: nothing is
re-enqueued or re-sent. -/
def handleResponse (retryEnabled : Bool) (endpoint : String)
    (res : HttpResponse) : ResponseOutcome :=
  if 200 ≤ res.statusCode ∧ res.statusCode ≤ 299 then .success
  else
    let formattedErr := formattedErrMsg endpoint res.statusCode
    if retryEnabled then
      let isThrottleError := res.statusCode == 429 || res.statusCode == 503
      let retryAfter : Int :=
        if isThrottleError && !(res.retryAfterHeader == "") then
          match goAtoi res.retryAfterHeader with
          | some seconds => seconds
          | none => 0
        else 0
      .logThrottle formattedErr retryAfter
    else .logError formattedErr

/-- One worker iteration for one received event that got an HTTP response
(exporter.go lines 269-331): exactly one request is issued, the response is
handled per `handleResponse`, at most one error line is logged, and the
event is never put back on the channel. -/
structure DeliveryResult where
  requestsIssued : Nat
  loggedErrors : Nat
  requeued : Bool
  outcome : ResponseOutcome
deriving DecidableEq, Repr

/-- The per-event delivery bookkeeping of the worker loop: the single POST,
the single log line a failure produces, and the absence of any re-enqueue. -/
def processEvent (retryEnabled : Bool) (endpoint : String)
    (res : HttpResponse) : DeliveryResult :=
  let oc := handleResponse retryEnabled endpoint res
  { requestsIssued := 1
    loggedErrors := match oc with
      | .success => 0
      | .logError _ => 1
      | .logThrottle _ _ => 1
    requeued := false
    outcome := oc }

/-- Go `strings.Split` specialised to a one-rune separator: split at every
occurrence of the separator; the result always has at least one element
(`Split("", sep)` is `[""]`). -/
def goSplitAux (sep : Char) : List Char → List Char → List (List Char)
  | [], acc => [acc.reverse]
  | c :: rest, acc =>
      if c = sep then acc.reverse :: goSplitAux sep rest []
      else goSplitAux sep rest (c :: acc)

/-- `strings.Split(s, sep)` for a one-rune separator. -/
def goSplit (s : String) (sep : Char) : List String :=
  (goSplitAux sep s.data []).map String.mk

/-- The observable state newExporter leaves behind (exporter.go lines
85-124): the `typeVersion` global, the `filters` / `filterAllowAll` globals,
the `err` local after the filter block, and the error value the function
actually returns — which is `nil` on every path past `conf.Validate()`,
because the final statement returns the exporter with a literal `nil` and the
`err` assigned inside the filter block is never propagated. -/
structure ExporterInit where
  typeVersion : String
  filters : List String
  filterAllowAll : Bool
  localErr : Option String
  returnedErr : Option String
deriving DecidableEq, Repr

/-- newExporter past `conf.Validate()` (exporter.go lines 93-123): set
`typeVersion` from the spec-version, split a non-empty filter expression on
`"|"`, flag the error message when the split is empty, set `filterAllowAll`
on the single `"*"` entry, and return the exporter with a nil error. -/
def newExporterModel (specversion : String) (filterExpr : String) :
    ExporterInit :=
  let tv := typeVersionOf specversion
  if filterExpr.length > 0 then
    let fs := goSplit filterExpr '|'
    if fs.length == 0 then
      { typeVersion := tv, filters := fs, filterAllowAll := false,
        localErr := some ("some valid fields should be provided in filters " ++
          "(\x27*\x27, \x27Created|Deleted\x27), provided: " ++ filterExpr),
        returnedErr := none }
    else if fs.length == 1 && fs.headD "" == "*" then
      { typeVersion := tv, filters := fs, filterAllowAll := true,
        localErr := none, returnedErr := none }
    else
      { typeVersion := tv, filters := fs, filterAllowAll := false,
        localErr := none, returnedErr := none }
  else
    { typeVersion := tv, filters := [], filterAllowAll := false,
      localErr := none, returnedErr := none }

/-! Spec-side definitions, written from the specification's words, to be
compared with the definitions embedded from the source. -/

/-- The fixed order in which the spec says missing attributes are listed:
reason, start_time, name, uid, namespace, count. -/
def requiredAttrOrder : List String :=
  [ATTR_EVENT_REASON, ATTR_EVENT_START_TIME, ATTR_EVENT_NAME,
   ATTR_EVENT_UID, ATTR_EVENT_NS, ATTR_EVENT_COUNT]

/-- The attribute keys absent from a record, in the spec's fixed order. -/
def missingAttrs (lr : LogRecord) : List String :=
  requiredAttrOrder.filter (fun k => !(attrGet lr.attrs k).isSome)

/-- The aggregated error message the spec describes: it names exactly the
missing attribute names, each braced, in the fixed order. -/
def specMissingMsg (lr : LogRecord) : String :=
  "Couldn\x27t find " ++
    String.join ((missingAttrs lr).map (fun k => "\x7b" ++ k ++ "\x7d ")) ++
    "attributes in the log"

/-- JSON string escaping per the spec's words: every literal quote appears as
backslash-quote. -/
def specJsonEscape (s : String) : String :=
  String.mk (s.data.flatMap (fun c => if c = '"' then ['\\', '"'] else [c]))

/-- One JSON string member. -/
def specJsonField (k v : String) : String :=
  "\"" ++ k ++ "\":\"" ++ specJsonEscape v ++ "\""

/-- The spec's body: a JSON object with exactly the fields reason,
start_time, name, namespace, count, message, valued from the record. -/
def specJsonBody (ce : cloudeventdata) : String :=
  "\x7b" ++ specJsonField "reason" ce.reason ++ "," ++
    specJsonField "start_time" ce.startTime ++ "," ++
    specJsonField "name" ce.name ++ "," ++
    specJsonField "namespace" ce.namespc ++ "," ++
    "\"count\":" ++ toString ce.count ++ "," ++
    specJsonField "message" ce.message ++ "\x7d"

/-- The spec's "reason with all whitespace characters removed". -/
def specStripWs (s : String) : String :=
  String.mk (s.data.foldr (fun c acc => if goIsSpace c then acc else c :: acc) [])

/-! Concrete inputs used by counterexamples and witnesses. -/

/-- A record with no `k8s.event.reason` attribute at all. -/
def lrNoReason : LogRecord :=
  { attrs := [(ATTR_EVENT_NAME, .ofStr "pod-x")], body := .ofStr "hello" }

/-- A one-record batch around `lrNoReason`. -/
def batchNoReason : Logs := [⟨[⟨[lrNoReason]⟩]⟩]

/-- A record carrying all six required attributes ("Created"). -/
def lrA : LogRecord :=
  { attrs := [(ATTR_EVENT_COUNT, .ofInt 1), (ATTR_EVENT_NAME, .ofStr "pod-a"),
      (ATTR_EVENT_NS, .ofStr "default"), (ATTR_EVENT_UID, .ofStr "uid-a"),
      (ATTR_EVENT_REASON, .ofStr "Created"),
      (ATTR_EVENT_START_TIME, .ofStr "t1")],
    body := .ofStr "m1" }

/-- A second complete record ("Deleted"), distinct from `lrA`. -/
def lrB : LogRecord :=
  { attrs := [(ATTR_EVENT_COUNT, .ofInt 2), (ATTR_EVENT_NAME, .ofStr "pod-b"),
      (ATTR_EVENT_NS, .ofStr "kube"), (ATTR_EVENT_UID, .ofStr "uid-b"),
      (ATTR_EVENT_REASON, .ofStr "Deleted"),
      (ATTR_EVENT_START_TIME, .ofStr "t2")],
    body := .ofStr "m2" }

/-- A two-record batch around `lrA` and `lrB`. -/
def batchTwo : Logs := [⟨[⟨[lrA, lrB]⟩]⟩]

/-- The `cloudeventdata` value pushLogs constructs from `lrA`. -/
def ceA : cloudeventdata :=
  { count := 1, message := "m1", name := "pod-a", namespc := "default",
    reason := "Created", startTime := "t1", uid := "uid-a" }

/-- The `cloudeventdata` value pushLogs constructs from `lrB`. -/
def ceB : cloudeventdata :=
  { count := 2, message := "m2", name := "pod-b", namespc := "kube",
    reason := "Deleted", startTime := "t2", uid := "uid-b" }

/-- A record missing start_time and count (name, namespace, uid, reason
present). -/
def lrMissingTwo : LogRecord :=
  { attrs := [(ATTR_EVENT_NAME, .ofStr "pod-m"), (ATTR_EVENT_NS, .ofStr "default"),
      (ATTR_EVENT_UID, .ofStr "uid-m"), (ATTR_EVENT_REASON, .ofStr "Created")],
    body := .ofStr "mm" }

/-- A batch whose second record is `lrMissingTwo`. -/
def batchMissingTwo : Logs := [⟨[⟨[lrA, lrMissingTwo]⟩]⟩]

/-- A record whose message contains literal quotes. -/
def ceQuoted : cloudeventdata :=
  { count := 3, message := "say \"hi\" now", name := "pod-q", namespc := "default",
    reason := "Created", startTime := "t3", uid := "uid-q" }

/-! Helper lemmas. -/

theorem removeRecordPred_eq_false_of_no_reason (filters : List String)
    (lr : LogRecord) (h : attrGet lr.attrs ATTR_EVENT_REASON = none) :
    removeRecordPred filters lr = false := by
  unfold removeRecordPred
  rw [h]

theorem overAllErrStr_eq_spec (lr : LogRecord) :
    overAllErrStr lr =
      String.join ((missingAttrs lr).map (fun k => "\x7b" ++ k ++ "\x7d ")) := by
  unfold overAllErrStr missingAttrs requiredAttrOrder
  cases h1 : attrGet lr.attrs ATTR_EVENT_REASON <;>
  cases h2 : attrGet lr.attrs ATTR_EVENT_START_TIME <;>
  cases h3 : attrGet lr.attrs ATTR_EVENT_NAME <;>
  cases h4 : attrGet lr.attrs ATTR_EVENT_UID <;>
  cases h5 : attrGet lr.attrs ATTR_EVENT_NS <;>
  cases h6 : attrGet lr.attrs ATTR_EVENT_COUNT <;>
    simp [h1, h2, h3, h4, h5, h6, String.join, String.ext_iff]

theorem extractRecord_error_of_missing (lr : LogRecord)
    (h : anyAttrError lr = true) :
    extractRecord lr = .error (specMissingMsg lr) := by
  unfold anyAttrError at h
  unfold extractRecord specMissingMsg
  rw [← overAllErrStr_eq_spec]
  cases hc : attrGet lr.attrs ATTR_EVENT_COUNT <;>
  cases hn : attrGet lr.attrs ATTR_EVENT_NAME <;>
  cases hs : attrGet lr.attrs ATTR_EVENT_NS <;>
  cases hu : attrGet lr.attrs ATTR_EVENT_UID <;>
  cases hr : attrGet lr.attrs ATTR_EVENT_REASON <;>
  cases ht : attrGet lr.attrs ATTR_EVENT_START_TIME <;>
    simp_all [FETCH_ATTR]

theorem extractRecord_ok_of_present (lr : LogRecord)
    (h : anyAttrError lr = false) :
    ∃ ce, extractRecord lr = .ok ce := by
  unfold anyAttrError at h
  unfold extractRecord
  cases hc : attrGet lr.attrs ATTR_EVENT_COUNT <;>
  cases hn : attrGet lr.attrs ATTR_EVENT_NAME <;>
  cases hs : attrGet lr.attrs ATTR_EVENT_NS <;>
  cases hu : attrGet lr.attrs ATTR_EVENT_UID <;>
  cases hr : attrGet lr.attrs ATTR_EVENT_REASON <;>
  cases ht : attrGet lr.attrs ATTR_EVENT_START_TIME <;>
    simp_all [FETCH_ATTR]

theorem convertRecords_error_of_find (l : List LogRecord) (bad : LogRecord)
    (h : l.find? anyAttrError = some bad) :
    convertRecords l = .error (specMissingMsg bad) := by
  induction l with
  | nil => simp at h
  | cons lr rest ih =>
    rw [List.find?_cons] at h
    cases ha : anyAttrError lr with
    | true =>
      rw [ha] at h
      simp at h
      subst h
      unfold convertRecords
      rw [extractRecord_error_of_missing lr ha]
    | false =>
      rw [ha] at h
      simp at h
      obtain ⟨ce, hce⟩ := extractRecord_ok_of_present lr ha
      unfold convertRecords
      rw [hce, ih h]

theorem mem_flattenLogs_iff (ld : Logs) (lr : LogRecord) :
    lr ∈ flattenLogs ld ↔
      ∃ rl ∈ ld, ∃ sl ∈ rl.scopeLogs, lr ∈ sl.logRecords := by
  unfold flattenLogs
  simp only [List.mem_flatten, List.mem_map]
  constructor
  · rintro ⟨L, ⟨rl, hrl, rfl⟩, hlr⟩
    obtain ⟨M, hMmem, hM⟩ := List.mem_flatten.mp hlr
    obtain ⟨sl, hsl, rfl⟩ := List.mem_map.mp hMmem
    exact ⟨rl, hrl, sl, hsl, hM⟩
  · rintro ⟨rl, hrl, sl, hsl, hlr⟩
    refine ⟨_, ⟨rl, hrl, rfl⟩, ?_⟩
    exact List.mem_flatten.mpr ⟨_, List.mem_map_of_mem _ hsl, hlr⟩

/-! Claim theorems. -/

/-- C1 counterexample: a record lacking the `k8s.event.reason` attribute is
NOT removed by the ReasonFilter pass of pushLogs — with a non-wildcard
filter the batch passes the filter unchanged, the record reaches field
extraction, and pushLogs returns the missing-attribute error naming the
reason among the absent attributes.  This refutes the claim that such a
record is dropped before field extraction. -/
theorem C1_counterexample :
    applyReasonFilter false ["Created"] batchNoReason = batchNoReason ∧
    pushLogs false ["Created"] batchNoReason =
      .error ("Couldn\x27t find \x7bk8s.event.reason\x7d " ++
        "\x7bk8s.event.start_time\x7d \x7bk8s.event.uid\x7d " ++
        "\x7bk8s.namespace.name\x7d \x7bk8s.event.count\x7d " ++
        "attributes in the log") := by
  constructor
  · rfl
  · rfl

/-- C1 amended: with the filter not in allow-all mode, every log record of
the batch that lacks a `k8s.event.reason` attribute SURVIVES the
ReasonFilter pass of pushLogs (the RemoveIf predicate returns false for it)
and therefore proceeds to field extraction; it is not dropped. -/
theorem C1_amended_reasonless_records_survive (filters : List String)
    (ld : Logs) (lr : LogRecord) (hmem : lr ∈ flattenLogs ld)
    (hno : attrGet lr.attrs ATTR_EVENT_REASON = none) :
    removeRecordPred filters lr = false ∧
    lr ∈ flattenLogs (applyReasonFilter false filters ld) := by
  have hkeep : removeRecordPred filters lr = false :=
    removeRecordPred_eq_false_of_no_reason filters lr hno
  refine ⟨hkeep, ?_⟩
  rw [mem_flattenLogs_iff] at hmem ⊢
  obtain ⟨rl, hrl, sl, hsl, hlr⟩ := hmem
  have hlrKept : lr ∈ sl.logRecords.filter
      (fun r => !(removeRecordPred filters r)) :=
    List.mem_filter.mpr ⟨hlr, by simp [hkeep]⟩
  have hslKept : ScopeLogs.mk (sl.logRecords.filter
        (fun r => !(removeRecordPred filters r))) ∈
      ((rl.scopeLogs.map (fun sl => ScopeLogs.mk (sl.logRecords.filter
          (fun r => !(removeRecordPred filters r))))).filter
        (fun sl => !(sl.logRecords.length == 0))) := by
    refine List.mem_filter.mpr ⟨List.mem_map_of_mem _ hsl, ?_⟩
    simp only [Bool.not_eq_eq_eq_not, Bool.not_true, beq_eq_false_iff_ne, ne_eq,
      List.length_eq_zero]
    exact List.ne_nil_of_mem hlrKept
  refine ⟨ResourceLogs.mk ((rl.scopeLogs.map (fun sl =>
      ScopeLogs.mk (sl.logRecords.filter
        (fun r => !(removeRecordPred filters r))))).filter
      (fun sl => !(sl.logRecords.length == 0))), ?_, ?_⟩
  · unfold applyReasonFilter
    simp only [Bool.false_eq_true, if_false]
    refine List.mem_filter.mpr ⟨List.mem_map_of_mem _ hrl, ?_⟩
    simp only [Bool.not_eq_eq_eq_not, Bool.not_true, beq_eq_false_iff_ne, ne_eq,
      List.length_eq_zero]
    exact List.ne_nil_of_mem hslKept
  · exact ⟨_, hslKept, hlrKept⟩

/-- C1 amended, witness: the concrete reason-less record of `batchNoReason`
survives the non-allow-all filter pass. -/
theorem C1_amended_witness :
    removeRecordPred ["Created"] lrNoReason = false ∧
    lrNoReason ∈ flattenLogs (applyReasonFilter false ["Created"] batchNoReason) :=
  C1_amended_reasonless_records_survive ["Created"] batchNoReason lrNoReason
    (by decide) (by decide)

/-- C2: whenever the batch that survives the filter pass contains a record
missing at least one of the six required attributes, pushLogs stops at the
first such record and returns the single aggregated error whose message
names exactly that record's missing attribute names, braced, in the fixed
order reason, start_time, name, uid, namespace, count
(`specMissingMsg`). -/
theorem C2_missing_attrs_single_error (filterAllowAll : Bool)
    (filters : List String) (ld : Logs) (bad : LogRecord)
    (h : (flattenLogs (applyReasonFilter filterAllowAll filters ld)).find?
        anyAttrError = some bad) :
    pushLogs filterAllowAll filters ld = .error (specMissingMsg bad) := by
  unfold pushLogs
  exact convertRecords_error_of_find _ bad h

/-- C2 witness: in `batchMissingTwo` the second record lacks start_time and
count; pushLogs fails with exactly those two attribute names, in the fixed
order, and no record list is produced. -/
theorem C2_missing_attrs_single_error_witness :
    pushLogs true [] batchMissingTwo =
      .error ("Couldn\x27t find \x7bk8s.event.start_time\x7d " ++
        "\x7bk8s.event.count\x7d attributes in the log") := by
  rw [C2_missing_attrs_single_error true [] batchMissingTwo lrMissingTwo
    (by rfl)]
  rfl

/-- C3: the reason filter of pushLogs — with the wildcard (allow-all) flag
the batch passes through unchanged; without it a record that has a reason
attribute is kept by the RemoveIf predicate exactly when its reason string
is one of the configured filter values, and every scope group and resource
group of the output is non-empty (empty groups were removed). -/
theorem C3_filter_characterization (filters : List String) (ld : Logs) :
    applyReasonFilter true filters ld = ld ∧
    (∀ lr v, attrGet lr.attrs ATTR_EVENT_REASON = some v →
      (removeRecordPred filters lr = false ↔ v.asString ∈ filters)) ∧
    (∀ rl, rl ∈ applyReasonFilter false filters ld →
      rl.scopeLogs ≠ [] ∧ ∀ sl, sl ∈ rl.scopeLogs → sl.logRecords ≠ []) := by
  refine ⟨rfl, ?_, ?_⟩
  · intro lr v hv
    unfold removeRecordPred
    rw [hv]
    simp [List.any_eq_true, beq_iff_eq]
  · intro rl hrl
    unfold applyReasonFilter at hrl
    simp only [Bool.false_eq_true, if_false] at hrl
    obtain ⟨hrlmem, hrlpred⟩ := List.mem_filter.mp hrl
    obtain ⟨rl0, _, rfl⟩ := List.mem_map.mp hrlmem
    constructor
    · simp only [Bool.not_eq_eq_eq_not, Bool.not_true, beq_eq_false_iff_ne,
        ne_eq, List.length_eq_zero] at hrlpred
      exact hrlpred
    · intro sl hsl
      obtain ⟨_, hslpred⟩ := List.mem_filter.mp hsl
      simp only [Bool.not_eq_eq_eq_not, Bool.not_true, beq_eq_false_iff_ne,
        ne_eq, List.length_eq_zero] at hslpred
      exact hslpred

/-- C3 witness: with the allow-list Created, the wildcard mode passes
`batchTwo` through unchanged, and the record with reason Created is kept by
the filter predicate. -/
theorem C3_filter_characterization_witness :
    applyReasonFilter true ["Created"] batchTwo = batchTwo ∧
    (removeRecordPred ["Created"] lrA = false ↔
      ("Created" : String) ∈ ["Created"]) :=
  ⟨(C3_filter_characterization ["Created"] batchTwo).1,
   (C3_filter_characterization ["Created"] batchTwo).2.1 lrA
     (.ofStr "Created") (by decide)⟩

/-- C4 is violated by the code: pushLogs constructs two distinct
`cloudeventdata` values for the two records of `batchTwo`, but every channel
send transmits the address of the single reused stack variable `ce`
(exporter.go lines 151, 260), so both queue entries alias one cell, and
after the producer loop that cell holds the second record's value — a
worker dereferencing its entry then observes a value different from the one
constructed for the first event.  The records are neither immutable after
construction nor received unchanged. -/
theorem C4_shared_cell_aliasing :
    pushLogs true [] batchTwo = .ok [ceA, ceB] ∧
    ceA ≠ ceB ∧
    ceCellAfter [ceA, ceB] = some ceB ∧
    some ceB ≠ some ceA := by
  refine ⟨by rfl, by decide, by rfl, by decide⟩

theorem escapeQuotes_data (s : String) :
    (escapeQuotes s).data =
      s.data.flatMap (fun c => if c = '"' then ['\\', '"'] else [c]) := by
  show s.data.foldr _ [] = _
  induction s.data with
  | nil => rfl
  | cons c t ih =>
    by_cases h : c = '"' <;> simp [h, ih]

theorem specJsonEscape_eq_self {s : String} (h : '"' ∉ s.data) :
    specJsonEscape s = s := by
  apply String.ext
  show s.data.flatMap _ = s.data
  revert h
  induction s.data with
  | nil => intro h; rfl
  | cons c t ih =>
    intro h
    simp only [List.mem_cons, not_or] at h
    simp [Ne.symm h.1, ih h.2]

/-- C5: for a well-formed record — one whose reason, start_time, name and
namespace contain no literal quote, as the spec's data model requires
(arbitrary quotes are allowed only in the message) — the body the worker
serializes equals the spec's JSON object with exactly the fields reason,
start_time, name, namespace, count, message valued from the record
(`specJsonBody`), and every literal quote of the message appears in the
body as backslash-quote. -/
theorem C5_body_matches_spec_json (ce : cloudeventdata)
    (hr : '"' ∉ ce.reason.data)
    (hst : '"' ∉ ce.startTime.data)
    (hn : '"' ∉ ce.name.data)
    (hns : '"' ∉ ce.namespc.data) :
    exportBody ce = specJsonBody ce ∧
    (escapeQuotes ce.message).data =
      ce.message.data.flatMap (fun c => if c = '"' then ['\\', '"'] else [c]) := by
  refine ⟨?_, escapeQuotes_data ce.message⟩
  unfold exportBody specJsonBody specJsonField
  rw [specJsonEscape_eq_self hr, specJsonEscape_eq_self hst,
      specJsonEscape_eq_self hn, specJsonEscape_eq_self hns]
  apply String.ext
  simp [escapeQuotes_data, specJsonEscape]

/-- C5 witness: the concrete record `ceQuoted`, whose message contains two
literal quotes, serializes to the spec's JSON object, with the quotes
escaped. -/
theorem C5_body_matches_spec_json_witness :
    exportBody ceQuoted = specJsonBody ceQuoted ∧
    (escapeQuotes ceQuoted.message).data =
      ceQuoted.message.data.flatMap
        (fun c => if c = '"' then ['\\', '"'] else [c]) :=
  C5_body_matches_spec_json ceQuoted (by decide) (by decide) (by decide)
    (by decide)

theorem specStripWs_data (s : String) :
    (specStripWs s).data = s.data.filter (fun ch => !(goIsSpace ch)) := by
  show s.data.foldr _ [] = _
  induction s.data with
  | nil => rfl
  | cons c t ih =>
    by_cases h : goIsSpace c <;> simp [h, ih, List.filter_cons]

/-- C6: for any non-empty configured spec-version string, the Ce-Type value
built by configureCeType is the configured prefix, a dot, the letter v
followed by the first character of the spec-version, a dot, and the reason
with every whitespace character removed — whatever whitespace the reason
contains. -/
theorem C6_ce_type_header (specversion pretext reason : String) (c : Char)
    (rest : List Char) (h : specversion.data = c :: rest) :
    configureCeType (typeVersionOf specversion) pretext reason =
      pretext ++ "." ++ "v" ++ String.mk [c] ++ "." ++ specStripWs reason := by
  unfold configureCeType typeVersionOf
  rw [h]
  apply String.ext
  simp [specStripWs_data]

/-- C6 witness: spec-version 1.0 and a reason containing a space and a tab;
the header is the prefix, .v1., and the whitespace-stripped reason. -/
theorem C6_ce_type_header_witness :
    configureCeType (typeVersionOf "1.0") "dev.ce" "Back off\tnow" =
      "dev.ce" ++ "." ++ "v" ++ String.mk ['1'] ++ "." ++
        specStripWs "Back off\tnow" ∧
    configureCeType (typeVersionOf "1.0") "dev.ce" "Back off\tnow" =
      "dev.ce.v1.Backoffnow" :=
  ⟨C6_ce_type_header "1.0" "dev.ce" "Back off\tnow" '1' ['.', '0'] (by rfl),
   by rfl⟩

/-- C7: under the default retry-disabled policy, a worker that got an HTTP
response logs a delivery-failure error if and only if the status is outside
[200,299]; a 2xx status logs nothing and produces no retry signal, and a
non-2xx status logs the formatted failure exactly once, with exactly one
request issued for the event and no re-enqueue. -/
theorem C7_default_delivery_policy (endpoint : String) (res : HttpResponse) :
    ((processEvent RETRY_ENABLED endpoint res).loggedErrors = 0 ↔
      (200 ≤ res.statusCode ∧ res.statusCode ≤ 299)) ∧
    ((processEvent RETRY_ENABLED endpoint res).loggedErrors = 1 ↔
      (res.statusCode < 200 ∨ 299 < res.statusCode)) ∧
    (200 ≤ res.statusCode ∧ res.statusCode ≤ 299 →
      (processEvent RETRY_ENABLED endpoint res).outcome = .success) ∧
    (res.statusCode < 200 ∨ 299 < res.statusCode →
      (processEvent RETRY_ENABLED endpoint res).outcome =
        .logError (formattedErrMsg endpoint res.statusCode)) ∧
    (processEvent RETRY_ENABLED endpoint res).requestsIssued = 1 ∧
    (processEvent RETRY_ENABLED endpoint res).requeued = false := by
  unfold processEvent handleResponse RETRY_ENABLED
  by_cases h : 200 ≤ res.statusCode ∧ res.statusCode ≤ 299 <;>
    (simp [h]; try omega)

/-- C7 witness: a 201 response logs nothing and yields no retry signal; a
503 response with retry disabled logs the failure exactly once, with one
request and no re-enqueue. -/
theorem C7_default_delivery_policy_witness :
    ((processEvent RETRY_ENABLED "http://sink" ⟨201, ""⟩).loggedErrors = 0 ∧
     (processEvent RETRY_ENABLED "http://sink" ⟨201, ""⟩).outcome = .success) ∧
    ((processEvent RETRY_ENABLED "http://sink" ⟨503, "5"⟩).loggedErrors = 1 ∧
     (processEvent RETRY_ENABLED "http://sink" ⟨503, "5"⟩).requestsIssued = 1 ∧
     (processEvent RETRY_ENABLED "http://sink" ⟨503, "5"⟩).requeued = false) :=
  ⟨⟨((C7_default_delivery_policy "http://sink" ⟨201, ""⟩).1).mpr (by decide),
    (C7_default_delivery_policy "http://sink" ⟨201, ""⟩).2.2.1 (by decide)⟩,
   ⟨((C7_default_delivery_policy "http://sink" ⟨503, "5"⟩).2.1).mpr
      (by decide),
    (C7_default_delivery_policy "http://sink" ⟨503, "5"⟩).2.2.2.2.1,
    (C7_default_delivery_policy "http://sink" ⟨503, "5"⟩).2.2.2.2.2⟩⟩

theorem goAtoi_empty : goAtoi "" = none := rfl

/-- C8: with the retry flag enabled, every non-2xx response produces the
throttle-retry signal carrying the formatted failure message; the suggested
delay is the parsed Retry-After value exactly when the status is 429 or 503
and the header value parses as an integer, and zero otherwise; the signal is
only logged — one log line, one request, nothing re-sent. -/
theorem C8_retry_enabled_policy (endpoint : String) (res : HttpResponse)
    (h : res.statusCode < 200 ∨ 299 < res.statusCode) :
    (∀ n : Int, (res.statusCode = 429 ∨ res.statusCode = 503) →
      goAtoi res.retryAfterHeader = some n →
      handleResponse true endpoint res =
        .logThrottle (formattedErrMsg endpoint res.statusCode) n) ∧
    ((res.statusCode = 429 ∨ res.statusCode = 503) →
      goAtoi res.retryAfterHeader = none →
      handleResponse true endpoint res =
        .logThrottle (formattedErrMsg endpoint res.statusCode) 0) ∧
    (res.statusCode ≠ 429 → res.statusCode ≠ 503 →
      handleResponse true endpoint res =
        .logThrottle (formattedErrMsg endpoint res.statusCode) 0) ∧
    (processEvent true endpoint res).loggedErrors = 1 ∧
    (processEvent true endpoint res).requestsIssued = 1 ∧
    (processEvent true endpoint res).requeued = false := by
  have hnot : ¬(200 ≤ res.statusCode ∧ res.statusCode ≤ 299) := by omega
  have hout : handleResponse true endpoint res =
      .logThrottle (formattedErrMsg endpoint res.statusCode)
        (if (res.statusCode == 429 || res.statusCode == 503) &&
            !(res.retryAfterHeader == "") then
          match goAtoi res.retryAfterHeader with
          | some seconds => seconds
          | none => 0
        else 0) := by
    unfold handleResponse
    rw [if_neg hnot]
    rfl
  refine ⟨?_, ?_, ?_, ?_, ?_, ?_⟩
  · intro n ht hp
    have hne : ¬(res.retryAfterHeader = "") := by
      intro he
      rw [he, goAtoi_empty] at hp
      cases hp
    rw [hout]
    rcases ht with h1 | h1 <;> simp [h1, hne, hp]
  · intro ht hp
    rw [hout]
    by_cases he : res.retryAfterHeader = ""
    · simp [he]
    · rcases ht with h1 | h1 <;> simp [h1, he, hp]
  · intro h429 h503
    rw [hout]
    simp [h429, h503]
  · unfold processEvent
    rw [hout]
  · rfl
  · rfl

/-- C8 witness: a 503 response with Retry-After 5 carries a 5-second delay;
a 418 response with the same header carries zero. -/
theorem C8_retry_enabled_policy_witness :
    handleResponse true "http://sink2" ⟨503, "5"⟩ =
      .logThrottle (formattedErrMsg "http://sink2" 503) 5 ∧
    handleResponse true "http://sink2" ⟨418, "5"⟩ =
      .logThrottle (formattedErrMsg "http://sink2" 418) 0 :=
  ⟨(C8_retry_enabled_policy "http://sink2" ⟨503, "5"⟩ (by decide)).1 5
      (Or.inr rfl) (by decide),
   (C8_retry_enabled_policy "http://sink2" ⟨418, "5"⟩ (by decide)).2.2.1
      (by decide) (by decide)⟩

theorem goSplitAux_ne_nil (sep : Char) (l acc : List Char) :
    goSplitAux sep l acc ≠ [] := by
  induction l generalizing acc with
  | nil => simp [goSplitAux]
  | cons c rest ih =>
    unfold goSplitAux
    by_cases h : c = sep
    · simp [h]
    · simp [h]
      exact ih (c :: acc)

theorem goSplit_ne_nil (s : String) (sep : Char) : goSplit s sep ≠ [] := by
  unfold goSplit
  intro h
  exact goSplitAux_ne_nil sep s.data [] (List.map_eq_nil_iff.mp h)

theorem newExporterModel_no_error (specversion filterExpr : String) :
    (newExporterModel specversion filterExpr).localErr = none ∧
    (newExporterModel specversion filterExpr).returnedErr = none := by
  unfold newExporterModel
  dsimp only
  split
  · split
    · rename_i hlen
      exfalso
      have hz : (goSplit filterExpr '|').length = 0 := by simpa using hlen
      exact goSplit_ne_nil filterExpr '|' (List.length_eq_zero.mp hz)
    · split
      · exact ⟨rfl, rfl⟩
      · exact ⟨rfl, rfl⟩
  · exact ⟨rfl, rfl⟩

/-- C9 is violated by the code, which intends the configuration error but
never surfaces it: `strings.Split` always returns at least one element, so
no filter expression is ever empty after splitting (third conjunct), making
the `filtersLen == 0` guard unreachable; and even the error the guard would
build is only assigned to a local that newExporter drops — for every
spec-version and filter expression, construction returns a nil error
(first conjunct) and the local error is never set (second conjunct). -/
theorem C9_filter_config_error_never_surfaced (specversion filterExpr : String) :
    (newExporterModel specversion filterExpr).returnedErr = none ∧
    (newExporterModel specversion filterExpr).localErr = none ∧
    goSplit filterExpr '|' ≠ [] :=
  ⟨(newExporterModel_no_error specversion filterExpr).2,
   (newExporterModel_no_error specversion filterExpr).1,
   goSplit_ne_nil filterExpr '|'⟩

/-- C10: with an empty configured spec-version string, construction still
succeeds (nil returned error), the derived type-version tag stays the empty
string, and every Ce-Type value built afterwards is the prefix, two
consecutive dots, and the whitespace-stripped reason. -/
theorem C10_empty_specversion (pretext reason filterExpr : String) :
    typeVersionOf "" = "" ∧
    (newExporterModel "" filterExpr).typeVersion = "" ∧
    (newExporterModel "" filterExpr).returnedErr = none ∧
    configureCeType (typeVersionOf "") pretext reason =
      pretext ++ ".." ++ specStripWs reason := by
  refine ⟨rfl, ?_, (newExporterModel_no_error "" filterExpr).2, ?_⟩
  · unfold newExporterModel
    dsimp only
    split
    · split
      · rfl
      · split
        · rfl
        · rfl
    · rfl
  · unfold configureCeType typeVersionOf
    apply String.ext
    simp [specStripWs_data]

end CloudeventExporter
